import Mathlib

/-!
Shallow embedding of the save_pcap capture-and-rollover engine
(src/lib.rs) and proofs about its rollover policy, capture loops,
file allocation and startup sequencing.

Conventions of the embedding:
* machine integers are modelled as Nat, with explicit reduction
  mod 2^32 where the Rust source casts to u32;
* wall-clock instants are Nat seconds; SystemTime.elapsed is modelled
  as an Option Nat (none for the Err case of a non-monotonic clock);
* fallible external effects (directory creation, device open,
  per-packet container writes) are driven by explicit oracles: a
  CaptureEnv record for startup, and a writeOk flag carried by each
  packet event for the container writer;
* each capture loop from the source becomes a total step function on
  an explicit state record, and a run is a List.foldl of that step
  over the list of iteration events (clock sample plus source
  outcome); a state whose halted field is set absorbs further steps,
  mirroring a loop that has executed break or an early return.
-/

/-- Container format selector, from enum FileFormat in src/lib.rs. -/
inductive FileFormat where
  | Pcap
  | PcapNg
deriving DecidableEq, Repr

/-- Packet source selector, from enum PacketSource in src/lib.rs. -/
inductive PacketSource where
  | NetworkDevice (name : String)
  | UserProvided
deriving DecidableEq, Repr

/-- Capture-session configuration, from struct PcapCaptureOptions. -/
structure PcapCaptureOptions where
  packet_source : PacketSource
  file_prefix : String
  file_path : String
  file_format : FileFormat
  packet_limit : Option Nat
  snaplen : Int
  timeout_ms : Int
  continuous_capture : Bool
  rollover_time_seconds : Option Nat
  rollover_packet_count : Option Nat
  rollover_file_size_mb : Option Nat
deriving DecidableEq, Repr

/-- Error taxonomy, from enum SavePcapError in src/lib.rs.  Payload
strings that are only interpolated into log-style messages are kept as
the distinguishing datum (device name, directory path). -/
inductive SavePcapError where
  | pcapError
  | ioError
  | invalidDevice (name : String)
  | directoryCreationFailed (path : String)
  | captureInterrupted
  | pcapFileError
deriving DecidableEq, Repr

/-- One serialized pcap packet record, from struct PcapPacket of the
pcap_file crate as the source constructs it: a Duration timestamp
(seconds and sub-second nanoseconds), an original length, and the
payload bytes. -/
structure PcapPacket where
  ts_secs : Nat
  ts_nanos : Nat
  orig_len : Nat
  data : List Nat
deriving DecidableEq, Repr

/-- Duration.new normalization: nanoseconds at or above 10^9 carry
into the seconds field. -/
def durationNew (secs nanos : Nat) : Nat × Nat :=
  (secs + nanos / 1000000000, nanos % 1000000000)

/-- The packet record the device loops build (src/lib.rs lines
284-291, 533-540): timestamp = Duration.new (tv_sec as u64,
tv_usec as u32 * 1000), orig_len = data.len() as u32, payload copied
in full. The u32 casts are the explicit mod 2^32 reductions. -/
def mkDevicePcapPacket (tv_sec tv_usec : Nat) (data : List Nat) : PcapPacket :=
  let nanos := (tv_usec * 1000) % 2 ^ 32
  let d := durationNew tv_sec nanos
  { ts_secs := d.1, ts_nanos := d.2, orig_len := data.length % 2 ^ 32, data := data }

/-- The packet record the user-supplied loops build (src/lib.rs lines
393-404, 449-460): the caller-provided Duration, or the current wall
clock when absent; orig_len = data.len() as u32. The fallback clock
sample is the iteration clock in whole seconds. -/
def mkUserPcapPacket (now : Nat) (ts : Option (Nat × Nat)) (data : List Nat) : PcapPacket :=
  let t := ts.getD (now, 0)
  { ts_secs := t.1, ts_nanos := t.2, orig_len := data.length % 2 ^ 32, data := data }

/-- Rollover decision, from fn check_needs_rollover (src/lib.rs lines
482-510). The sequence of early-return-true checks is the disjunction
of the three threshold tests; file_elapsed is the
file_creation_time.elapsed() outcome (none models the Err case, in
which the time threshold cannot fire). -/
def check_needs_rollover (opts : PcapCaptureOptions) (current_packet_count : Nat)
    (current_file_size_bytes : Nat) (file_elapsed : Option Nat) : Bool :=
  (match opts.rollover_time_seconds, file_elapsed with
    | some rollover_seconds, some elapsed => decide (rollover_seconds ≤ elapsed)
    | _, _ => false) ||
  (match opts.rollover_packet_count with
    | some max_packets => decide (max_packets ≤ current_packet_count)
    | none => false) ||
  (match opts.rollover_file_size_mb with
    | some max_size_mb => decide (max_size_mb * 1024 * 1024 ≤ current_file_size_bytes)
    | none => false)

/-- Result of one cap.next_packet() call in the device loops: a packet
(with its libpcap header timestamp fields and payload, plus the oracle
for whether writing it to the container succeeds), a timeout error
(message contains "timeout"), or any other hard capture error. -/
inductive DeviceResult where
  | packet (tv_sec tv_usec : Nat) (data : List Nat) (writeOk : Bool)
  | timeout
  | hardError
deriving DecidableEq, Repr

/-- Result of one receiver.recv() call in the user-supplied loops: a
UserPacket (optional Duration timestamp, payload, write oracle), or
the RecvError signalling that every sender has been dropped. -/
inductive UserResult where
  | packet (ts : Option (Nat × Nat)) (data : List Nat) (writeOk : Bool)
  | disconnected
deriving DecidableEq, Repr

/-- How a loop left its iteration: break (the function then returns
Ok) or the early return on a container write failure. -/
inductive LoopExit where
  | ok
  | pcapFileError
deriving DecidableEq, Repr

/-- SystemTime.elapsed on Nat-second instants: Err (none) when the
clock reads earlier than the stored creation instant. -/
def elapsedSecs (file_creation_time now : Nat) : Option Nat :=
  if now < file_creation_time then none else some (now - file_creation_time)

/-- The global packet-limit check at the top of every capture loop. -/
def limitReached (opts : PcapCaptureOptions) (packet_count_total : Nat) : Bool :=
  match opts.packet_limit with
  | some global_limit => decide (global_limit ≤ packet_count_total)
  | none => false

/-- Mutable state of the two continuous rollover loops: the session
counter, the per-file counters and creation instant, the records
written to already-closed (rolled-over) files, and those written to
the currently open file. halted is set once the loop has executed
break or an early return; further steps leave the state unchanged. -/
structure EngineState where
  halted : Option LoopExit
  packet_count_total : Nat
  current_file_packet_count : Nat
  current_file_size_bytes : Nat
  file_creation_time : Nat
  closed_files : List (List PcapPacket)
  current_file_writes : List PcapPacket
deriving DecidableEq, Repr

/-- Loop state right after the first file has been created (src/lib.rs
lines 216-233, 325-342). -/
def initEngineState (startTime : Nat) : EngineState :=
  { halted := none, packet_count_total := 0, current_file_packet_count := 0,
    current_file_size_bytes := 0, file_creation_time := startTime,
    closed_files := [], current_file_writes := [] }

/-- Rollover block (src/lib.rs lines 252-280, 361-389): flush and drop
the current writer, allocate a new file, zero the per-file counters
and restamp the creation time. A flush failure is only logged, so it
does not alter control flow. -/
def rolloverReset (st : EngineState) (now : Nat) : EngineState :=
  { st with closed_files := st.closed_files ++ [st.current_file_writes],
            current_file_writes := [],
            current_file_packet_count := 0,
            current_file_size_bytes := 0,
            file_creation_time := now }

/-- Successful write of one record (src/lib.rs lines 293-303,
406-416): append to the file and bump the session and per-file
counters, bytes by the payload length. -/
def writeEnginePacket (st : EngineState) (p : PcapPacket) (len : Nat) : EngineState :=
  { st with packet_count_total := st.packet_count_total + 1,
            current_file_packet_count := st.current_file_packet_count + 1,
            current_file_size_bytes := st.current_file_size_bytes + len,
            current_file_writes := st.current_file_writes ++ [p] }

/-- The rollover evaluation both continuous loops perform before
consuming the next source outcome (src/lib.rs lines 246-280, 355-389):
query check_needs_rollover on the current file counters and swap files
when it fires. -/
def afterRolloverCheck (opts : PcapCaptureOptions) (st : EngineState) (now : Nat) :
    EngineState :=
  if check_needs_rollover opts st.current_file_packet_count st.current_file_size_bytes
      (elapsedSecs st.file_creation_time now) then rolloverReset st now else st

/-- One iteration of fn continuous_capture_with_rollover (src/lib.rs
lines 235-316): global-limit check, then the rollover decision, then
cap.next_packet(). ev.1 is the wall clock sampled this iteration. -/
def devStep (opts : PcapCaptureOptions) (st : EngineState) :
    Nat × DeviceResult → EngineState
  | (now, res) =>
    if st.halted.isSome then st
    else if limitReached opts st.packet_count_total then { st with halted := some LoopExit.ok }
    else
      match res with
      | DeviceResult.packet tv_sec tv_usec data writeOk =>
          if writeOk then
            writeEnginePacket (afterRolloverCheck opts st now)
              (mkDevicePcapPacket tv_sec tv_usec data) data.length
          else { afterRolloverCheck opts st now with halted := some LoopExit.pcapFileError }
      | DeviceResult.timeout => afterRolloverCheck opts st now
      | DeviceResult.hardError =>
          { afterRolloverCheck opts st now with halted := some LoopExit.ok }

/-- fn continuous_capture_with_rollover as a run over the iteration
events it consumes. -/
def continuous_capture_with_rollover (opts : PcapCaptureOptions) (startTime : Nat)
    (events : List (Nat × DeviceResult)) : EngineState :=
  events.foldl (devStep opts) (initEngineState startTime)

/-- One iteration of fn continuous_user_packet_capture_with_rollover
(src/lib.rs lines 344-423): same structure, with receiver.recv() as
the source; a disconnect breaks the loop. -/
def userStep (opts : PcapCaptureOptions) (st : EngineState) :
    Nat × UserResult → EngineState
  | (now, res) =>
    if st.halted.isSome then st
    else if limitReached opts st.packet_count_total then { st with halted := some LoopExit.ok }
    else
      match res with
      | UserResult.packet ts data writeOk =>
          if writeOk then
            writeEnginePacket (afterRolloverCheck opts st now)
              (mkUserPcapPacket now ts data) data.length
          else { afterRolloverCheck opts st now with halted := some LoopExit.pcapFileError }
      | UserResult.disconnected =>
          { afterRolloverCheck opts st now with halted := some LoopExit.ok }

/-- fn continuous_user_packet_capture_with_rollover as a run over the
iteration events it consumes. -/
def continuous_user_packet_capture_with_rollover (opts : PcapCaptureOptions)
    (startTime : Nat) (events : List (Nat × UserResult)) : EngineState :=
  events.foldl (userStep opts) (initEngineState startTime)

/-- Every record written during a continuous run, rolled-over files
first, in order. -/
def allEngineWrites (st : EngineState) : List PcapPacket :=
  st.closed_files.flatten ++ st.current_file_writes

/-- Mutable state of the three single-shot loops: one file, a packet
counter and the records written to it. -/
structure ShotState where
  halted : Option LoopExit
  packet_count : Nat
  writes : List PcapPacket
deriving DecidableEq, Repr

/-- Loop state right after the container writer is opened. -/
def initShotState : ShotState :=
  { halted := none, packet_count := 0, writes := [] }

/-- One iteration of fn capture_to_pcap (src/lib.rs lines 512-566):
limit check, then cap.next_packet(); timeouts retry, hard errors
break, a write failure returns PcapFileError. -/
def capture_to_pcap_step (opts : PcapCaptureOptions) (st : ShotState)
    (res : DeviceResult) : ShotState :=
  if st.halted.isSome then st
  else if limitReached opts st.packet_count then { st with halted := some LoopExit.ok }
  else
    match res with
    | DeviceResult.packet tv_sec tv_usec data writeOk =>
        if writeOk then
          { st with packet_count := st.packet_count + 1,
                    writes := st.writes ++ [mkDevicePcapPacket tv_sec tv_usec data] }
        else { st with halted := some LoopExit.pcapFileError }
    | DeviceResult.timeout => st
    | DeviceResult.hardError => { st with halted := some LoopExit.ok }

/-- fn capture_to_pcap as a run over the next_packet outcomes. -/
def capture_to_pcap (opts : PcapCaptureOptions) (events : List DeviceResult) : ShotState :=
  events.foldl (capture_to_pcap_step opts) initShotState

/-- One iteration of fn capture_to_pcapng (src/lib.rs lines 568-622),
which the source implements with the same plain-pcap framing body as
capture_to_pcap. -/
def capture_to_pcapng_step (opts : PcapCaptureOptions) (st : ShotState)
    (res : DeviceResult) : ShotState :=
  if st.halted.isSome then st
  else if limitReached opts st.packet_count then { st with halted := some LoopExit.ok }
  else
    match res with
    | DeviceResult.packet tv_sec tv_usec data writeOk =>
        if writeOk then
          { st with packet_count := st.packet_count + 1,
                    writes := st.writes ++ [mkDevicePcapPacket tv_sec tv_usec data] }
        else { st with halted := some LoopExit.pcapFileError }
    | DeviceResult.timeout => st
    | DeviceResult.hardError => { st with halted := some LoopExit.ok }

/-- fn capture_to_pcapng as a run over the next_packet outcomes. -/
def capture_to_pcapng (opts : PcapCaptureOptions) (events : List DeviceResult) : ShotState :=
  events.foldl (capture_to_pcapng_step opts) initShotState

/-- One iteration of fn user_packets_to_pcap (src/lib.rs lines
428-480): limit check, then receiver.recv(); a disconnect breaks the
loop, a write failure returns PcapFileError. ev.1 is the wall clock
used for the default timestamp. -/
def user_packets_to_pcap_step (opts : PcapCaptureOptions) (st : ShotState) :
    Nat × UserResult → ShotState
  | (now, res) =>
    if st.halted.isSome then st
    else if limitReached opts st.packet_count then { st with halted := some LoopExit.ok }
    else
      match res with
      | UserResult.packet ts data writeOk =>
          if writeOk then
            { st with packet_count := st.packet_count + 1,
                      writes := st.writes ++ [mkUserPcapPacket now ts data] }
          else { st with halted := some LoopExit.pcapFileError }
      | UserResult.disconnected => { st with halted := some LoopExit.ok }

/-- fn user_packets_to_pcap as a run over the recv outcomes. -/
def user_packets_to_pcap (opts : PcapCaptureOptions)
    (events : List (Nat × UserResult)) : ShotState :=
  events.foldl (user_packets_to_pcap_step opts) initShotState

/-- Extension table of fn create_new_file (src/lib.rs lines 198-201). -/
def fileExtension : FileFormat → String
  | FileFormat.Pcap => "pcap"
  | FileFormat.PcapNg => "pcapng"

/-- Path.join for the relative file names the allocator produces. -/
def pathJoin (dir name : String) : String :=
  if dir = "" then name
  else if dir.endsWith "/" then dir ++ name
  else dir ++ "/" ++ name

/-- fn create_new_file (src/lib.rs lines 194-210). The local-time
YYYYMMDD_HHMMSS rendering of Local.now() is an input, since the clock
is external; the function returns the display name and the full
path joined onto the configured output directory. -/
def create_new_file (opts : PcapCaptureOptions) (timestamp : String) : String × String :=
  let file_extension := fileExtension opts.file_format
  let file_name :=
    PcapCaptureOptions.file_prefix opts ++ "_" ++ timestamp ++ "." ++ file_extension
  (file_name, pathJoin opts.file_path file_name)

/-- struct PcapCapturer: options plus the channel endpoints, which
exist only for the user-provided source. The endpoints are modelled
as unit handles. -/
structure PcapCapturer where
  options : PcapCaptureOptions
  packet_receiver : Option Unit
  packet_sender : Option Unit

/-- fn PcapCapturer.new (src/lib.rs lines 86-100): a channel is
created exactly for the UserProvided source. -/
def PcapCapturer.new (options : PcapCaptureOptions) : PcapCapturer :=
  match options.packet_source with
  | PacketSource.UserProvided =>
      { options := options, packet_receiver := some (), packet_sender := some () }
  | _ => { options := options, packet_receiver := none, packet_sender := none }

/-- fn get_packet_sender (src/lib.rs lines 190-192). -/
def PcapCapturer.get_packet_sender (c : PcapCapturer) : Option Unit :=
  c.packet_sender

/-- Oracles for the effectful startup steps of fn capture: whether
the output directory already exists, whether creating it succeeds,
whether opening the device succeeds, and the device list returned by
Device.list. -/
structure CaptureEnv where
  dirExists : Bool
  dirCreateOk : Bool
  openOk : Bool
  devices : List String
deriving DecidableEq, Repr

/-- Observable startup effects of fn capture, in execution order. -/
inductive StartupEffect where
  | createDirAll
  | listDevices
deriving DecidableEq, Repr

/-- Observable outcome of one fn capture call: its Result, the ordered
startup effects, whether the output directory was created, how many
output files were allocated, how many rollovers happened, and the
session packet total. -/
structure CaptureOutcome where
  result : Except SavePcapError Unit
  effects : List StartupEffect
  dir_created : Bool
  files_created : Nat
  rollovers : Nat
  total_written : Nat

/-- Mapping from how a loop halted to the Result fn capture returns:
only a container write failure surfaces as an error. -/
def exitToResult : Option LoopExit → Except SavePcapError Unit
  | some LoopExit.pcapFileError => Except.error SavePcapError.pcapFileError
  | _ => Except.ok ()

/-- fn capture (src/lib.rs lines 102-188): ensure the output
directory, then dispatch on the packet source; for a device source,
enumerate devices, validate the configured name, open the capture
handle, and run the continuous or single-shot loop; for the
user-provided source, run the corresponding loop on the receiver. -/
def PcapCapturer.capture (c : PcapCapturer) (env : CaptureEnv) (startTime : Nat)
    (devEvents : List (Nat × DeviceResult)) (userEvents : List (Nat × UserResult)) :
    CaptureOutcome :=
  let dirEffects := if env.dirExists then ([] : List StartupEffect)
    else [StartupEffect.createDirAll]
  if !env.dirExists && !env.dirCreateOk then
    { result := Except.error (SavePcapError.directoryCreationFailed c.options.file_path),
      effects := dirEffects, dir_created := false, files_created := 0,
      rollovers := 0, total_written := 0 }
  else
    let dirCreated := !env.dirExists
    match c.options.packet_source with
    | PacketSource.NetworkDevice device_name =>
      let effects := dirEffects ++ [StartupEffect.listDevices]
      if !(env.devices.contains device_name) then
        { result := Except.error (SavePcapError.invalidDevice device_name),
          effects := effects, dir_created := dirCreated, files_created := 0,
          rollovers := 0, total_written := 0 }
      else if !env.openOk then
        { result := Except.error SavePcapError.pcapError, effects := effects,
          dir_created := dirCreated, files_created := 0, rollovers := 0,
          total_written := 0 }
      else if c.options.continuous_capture then
        let st := continuous_capture_with_rollover c.options startTime devEvents
        { result := exitToResult st.halted, effects := effects, dir_created := dirCreated,
          files_created := st.closed_files.length + 1,
          rollovers := st.closed_files.length, total_written := st.packet_count_total }
      else
        let st := match c.options.file_format with
          | FileFormat.Pcap => capture_to_pcap c.options (devEvents.map Prod.snd)
          | FileFormat.PcapNg => capture_to_pcapng c.options (devEvents.map Prod.snd)
        { result := exitToResult st.halted, effects := effects, dir_created := dirCreated,
          files_created := 1, rollovers := 0, total_written := st.packet_count }
    | PacketSource.UserProvided =>
      match c.packet_receiver with
      | some _ =>
        if c.options.continuous_capture then
          let st := continuous_user_packet_capture_with_rollover c.options startTime
            userEvents
          { result := exitToResult st.halted, effects := dirEffects,
            dir_created := dirCreated, files_created := st.closed_files.length + 1,
            rollovers := st.closed_files.length, total_written := st.packet_count_total }
        else
          let st := user_packets_to_pcap c.options userEvents
          { result := exitToResult st.halted, effects := dirEffects,
            dir_created := dirCreated, files_created := 1, rollovers := 0,
            total_written := st.packet_count }
      | none =>
        { result := Except.error (SavePcapError.invalidDevice
            "No packet receiver available"),
          effects := dirEffects, dir_created := dirCreated, files_created := 0,
          rollovers := 0, total_written := 0 }

/-- Startup succeeds for the configured source in the given
environment: the directory exists or can be created, and for a device
source the configured name is listed and the handle opens. -/
def startupOk (opts : PcapCaptureOptions) (env : CaptureEnv) : Prop :=
  (env.dirExists = true ∨ env.dirCreateOk = true) ∧
  (∀ name, opts.packet_source = PacketSource.NetworkDevice name →
    env.devices.contains name = true ∧ env.openOk = true)

/-- impl Default for PcapCaptureOptions (src/lib.rs lines 55-71). -/
def defaultOptions : PcapCaptureOptions :=
  { packet_source := PacketSource.NetworkDevice "", file_prefix := "capture",
    file_path := ".", file_format := FileFormat.Pcap, packet_limit := none,
    snaplen := 65535, timeout_ms := 1000, continuous_capture := false,
    rollover_time_seconds := none, rollover_packet_count := none,
    rollover_file_size_mb := none }

/-- Payload length of the record written last into the current file,
zero when the file is still empty. -/
def lastWriteLen (l : List PcapPacket) : Nat :=
  match l.getLast? with
  | some p => p.data.length
  | none => 0

/-- A packet timestamp flattened to total nanoseconds. -/
def tsTotalNanos (p : PcapPacket) : Nat :=
  p.ts_secs * 1000000000 + p.ts_nanos

/-- A recv outcome that is a packet whose container write succeeds. -/
def isOkWritePacket : UserResult → Bool
  | UserResult.packet _ _ writeOk => writeOk
  | UserResult.disconnected => false

/-- Per-file overshoot bounds on a continuous-loop state: with a
configured packet threshold the open file holds at most one packet
beyond it, and with a configured size threshold its byte total exceeds
the threshold by less than the last written payload. -/
def engineOvershootInv (opts : PcapCaptureOptions) (st : EngineState) : Prop :=
  (∀ mp, opts.rollover_packet_count = some mp →
    st.current_file_packet_count ≤ mp + 1) ∧
  (∀ ms, opts.rollover_file_size_mb = some ms →
    st.current_file_size_bytes ≤ ms * 1048576 + lastWriteLen st.current_file_writes)

/-- Session accounting on a continuous-loop state: the session total
equals the number of records written, it respects a configured global
limit, and a write-failure exit can only happen strictly below the
limit. -/
def engineTotalInv (opts : PcapCaptureOptions) (st : EngineState) : Prop :=
  st.packet_count_total = (allEngineWrites st).length ∧
  (∀ l, opts.packet_limit = some l →
    st.packet_count_total ≤ l ∧
    (st.halted = some LoopExit.pcapFileError → st.packet_count_total < l))

/-- Session accounting on a single-shot loop state. -/
def shotTotalInv (opts : PcapCaptureOptions) (st : ShotState) : Prop :=
  st.packet_count = st.writes.length ∧
  (∀ l, opts.packet_limit = some l →
    st.packet_count ≤ l ∧
    (st.halted = some LoopExit.pcapFileError → st.packet_count < l))

/-- Every record of a continuous-loop state came out of
mkDevicePcapPacket. -/
def engineWritesFromDevice (st : EngineState) : Prop :=
  ∀ p ∈ allEngineWrites st, ∃ s u d, p = mkDevicePcapPacket s u d

/-- Every record of a single-shot device state came out of
mkDevicePcapPacket. -/
def shotWritesFromDevice (st : ShotState) : Prop :=
  ∀ p ∈ st.writes, ∃ s u d, p = mkDevicePcapPacket s u d

/-- Modelled from the spec: the output file naming convention of
section 6, prefix, underscore, local YYYYMMDD_HHMMSS timestamp, dot,
then the extension matching the configured container format. -/
def specFileName (filePre timestamp : String) (fmt : FileFormat) : String :=
  filePre ++ "_" ++ timestamp ++ "." ++
    (match fmt with
      | FileFormat.Pcap => "pcap"
      | FileFormat.PcapNg => "pcapng")

/-- Sample continuous-mode configuration with a packet threshold of 2
and a size threshold of 1 MB, used to instantiate general theorems at
concrete inputs. -/
def sampleRolloverOpts : PcapCaptureOptions :=
  { defaultOptions with
    continuous_capture := true
    rollover_packet_count := some 2
    rollover_file_size_mb := some 1 }

/-- Sample device run: three writable packets at seconds 0, 1, 2. -/
def sampleDevEvents : List (Nat × DeviceResult) :=
  [(0, DeviceResult.packet 10 0 [1, 2] true),
   (1, DeviceResult.packet 11 0 [3] true),
   (2, DeviceResult.packet 12 0 [4] true)]

/-- Sample continuous-mode configuration with a global packet limit of
2, used to instantiate general theorems at concrete inputs. -/
def sampleLimitOpts : PcapCaptureOptions :=
  { defaultOptions with
    packet_limit := some 2
    continuous_capture := true }

/-- Sample continuous-mode configuration with no limit and no
thresholds, used to instantiate general theorems at concrete inputs. -/
def sampleContinuousOpts : PcapCaptureOptions :=
  { defaultOptions with continuous_capture := true }

/-- Sample single-shot device configuration bound to eth0. -/
def sampleDeviceOpts : PcapCaptureOptions :=
  { defaultOptions with packet_source := PacketSource.NetworkDevice "eth0" }

/-- Environment in which startup fully succeeds for eth0. -/
def sampleDeviceEnv : CaptureEnv :=
  { dirExists := true, dirCreateOk := true, openOk := true, devices := ["eth0"] }

/-- Environment with a missing output directory (creatable) and no
devices at all. -/
def sampleMissingDeviceEnv : CaptureEnv :=
  { dirExists := false, dirCreateOk := true, openOk := true, devices := [] }

/-- C1: check_needs_rollover returns true exactly when some configured
threshold is met: elapsed seconds at or above rollover_time_seconds,
or packets at or above rollover_packet_count, or bytes at or above
rollover_file_size_mb binary megabytes; with no threshold configured
it returns false. -/
theorem check_needs_rollover_iff (opts : PcapCaptureOptions)
    (cnt bytes elapsed : Nat) :
    (check_needs_rollover opts cnt bytes (some elapsed) = true ↔
      (∃ rs, opts.rollover_time_seconds = some rs ∧ rs ≤ elapsed) ∨
      (∃ mp, opts.rollover_packet_count = some mp ∧ mp ≤ cnt) ∨
      (∃ ms, opts.rollover_file_size_mb = some ms ∧ ms * 1048576 ≤ bytes)) ∧
    (opts.rollover_time_seconds = none → opts.rollover_packet_count = none →
      opts.rollover_file_size_mb = none →
      check_needs_rollover opts cnt bytes (some elapsed) = false) := by
  constructor
  · rcases htime : opts.rollover_time_seconds with _ | rs <;>
      rcases hpc : opts.rollover_packet_count with _ | mp <;>
      rcases hsz : opts.rollover_file_size_mb with _ | ms <;>
        simp [check_needs_rollover, htime, hpc, hsz] <;> omega
  · intro h1 h2 h3
    simp [check_needs_rollover, h1, h2, h3]

/-- Witness for C1 at a concrete configuration: a 5 MB size threshold
triggers at 6 MiB of file content. -/
theorem check_needs_rollover_iff_witness :
    check_needs_rollover { defaultOptions with rollover_file_size_mb := some 5 }
      0 6291456 (some 0) = true := by
  have h := (check_needs_rollover_iff
    { defaultOptions with rollover_file_size_mb := some 5 } 0 6291456 0).1
  exact h.mpr (Or.inr (Or.inr ⟨5, rfl, by norm_num⟩))

/-- Invariance of a predicate under a List.foldl run of a step
function. -/
theorem foldl_invariant {α β : Type} (f : α → β → α) (I : α → Prop)
    (hstep : ∀ st e, I st → I (f st e)) :
    ∀ (l : List β) (init : α), I init → I (List.foldl f init l) := by
  intro l
  induction l with
  | nil => intro init h; simpa using h
  | cons e rest ih =>
      intro init h
      simpa using ih (f init e) (hstep init e h)

/-- The last write of a file that just received record p is p. -/
theorem lastWriteLen_concat (l : List PcapPacket) (p : PcapPacket) :
    lastWriteLen (l ++ [p]) = p.data.length := by
  simp [lastWriteLen, List.getLast?_concat]

/-- When check_needs_rollover declines, a configured packet threshold
is strictly above the current count. -/
theorem check_false_packet_bound (opts : PcapCaptureOptions) (cnt bytes : Nat)
    (el : Option Nat) (mp : Nat)
    (h : check_needs_rollover opts cnt bytes el = false)
    (hmp : opts.rollover_packet_count = some mp) : cnt < mp := by
  unfold check_needs_rollover at h
  rw [hmp] at h
  rcases Bool.or_eq_false_iff.mp h with ⟨h12, h3⟩
  rcases Bool.or_eq_false_iff.mp h12 with ⟨h1, h2⟩
  have := of_decide_eq_false h2
  omega

/-- When check_needs_rollover declines, a configured size threshold is
strictly above the current byte total. -/
theorem check_false_size_bound (opts : PcapCaptureOptions) (cnt bytes : Nat)
    (el : Option Nat) (ms : Nat)
    (h : check_needs_rollover opts cnt bytes el = false)
    (hms : opts.rollover_file_size_mb = some ms) : bytes < ms * 1048576 := by
  unfold check_needs_rollover at h
  rw [hms] at h
  rcases Bool.or_eq_false_iff.mp h with ⟨h12, h3⟩
  have := of_decide_eq_false h3
  omega

/-- A freshly rolled-over file satisfies the overshoot bounds. -/
theorem overshoot_rolloverReset (opts : PcapCaptureOptions) (st : EngineState)
    (now : Nat) : engineOvershootInv opts (rolloverReset st now) := by
  constructor
  · intro mp _
    simp [rolloverReset]
  · intro ms _
    simp [rolloverReset, lastWriteLen]

/-- Core of the overshoot argument: evaluating the rollover policy and
then writing one record keeps the per-file counters within one packet
of every configured threshold. -/
theorem overshoot_check_then_write (opts : PcapCaptureOptions) (st : EngineState)
    (now : Nat) (p : PcapPacket) (len : Nat) (hlen : len = p.data.length) :
    engineOvershootInv opts (writeEnginePacket (afterRolloverCheck opts st now) p len) := by
  unfold afterRolloverCheck
  by_cases hroll : check_needs_rollover opts st.current_file_packet_count
      st.current_file_size_bytes (elapsedSecs st.file_creation_time now) = true
  · rw [if_pos hroll]
    constructor
    · intro mp _
      simp [writeEnginePacket, rolloverReset]
    · intro ms _
      simp [writeEnginePacket, rolloverReset, lastWriteLen, hlen]
  · rw [if_neg hroll]
    rw [Bool.not_eq_true] at hroll
    constructor
    · intro mp hmp
      have hlt := check_false_packet_bound opts st.current_file_packet_count
        st.current_file_size_bytes (elapsedSecs st.file_creation_time now) mp hroll hmp
      simp only [writeEnginePacket]
      omega
    · intro ms hms
      have hlt := check_false_size_bound opts st.current_file_packet_count
        st.current_file_size_bytes (elapsedSecs st.file_creation_time now) ms hroll hms
      simp only [writeEnginePacket, lastWriteLen_concat, hlen]
      omega

/-- The rollover evaluation preserves the overshoot bounds. -/
theorem overshoot_afterRolloverCheck (opts : PcapCaptureOptions) (st : EngineState)
    (now : Nat) (h : engineOvershootInv opts st) :
    engineOvershootInv opts (afterRolloverCheck opts st now) := by
  unfold afterRolloverCheck
  split
  · exact overshoot_rolloverReset opts st now
  · exact h

/-- The overshoot bounds do not depend on the halted flag. -/
theorem overshoot_set_halted (opts : PcapCaptureOptions) (st : EngineState)
    (x : Option LoopExit) (h : engineOvershootInv opts st) :
    engineOvershootInv opts { st with halted := x } := by
  simpa [engineOvershootInv] using h

/-- One device-loop iteration preserves the overshoot bounds. -/
theorem devStep_overshoot (opts : PcapCaptureOptions) (st : EngineState)
    (ev : Nat × DeviceResult) (h : engineOvershootInv opts st) :
    engineOvershootInv opts (devStep opts st ev) := by
  rcases ev with ⟨now, res⟩
  simp only [devStep]
  by_cases hh : st.halted.isSome = true
  · rw [if_pos hh]
    exact h
  · rw [if_neg hh]
    by_cases hl : limitReached opts st.packet_count_total = true
    · rw [if_pos hl]
      exact overshoot_set_halted opts st (some LoopExit.ok) h
    · rw [if_neg hl]
      have h1 := overshoot_afterRolloverCheck opts st now h
      cases res with
      | packet tv_sec tv_usec data writeOk =>
          cases writeOk with
          | true => exact overshoot_check_then_write opts st now _ data.length rfl
          | false => exact overshoot_set_halted opts _ _ h1
      | timeout => exact h1
      | hardError => exact overshoot_set_halted opts _ _ h1

/-- One user-loop iteration preserves the overshoot bounds. -/
theorem userStep_overshoot (opts : PcapCaptureOptions) (st : EngineState)
    (ev : Nat × UserResult) (h : engineOvershootInv opts st) :
    engineOvershootInv opts (userStep opts st ev) := by
  rcases ev with ⟨now, res⟩
  simp only [userStep]
  by_cases hh : st.halted.isSome = true
  · rw [if_pos hh]
    exact h
  · rw [if_neg hh]
    by_cases hl : limitReached opts st.packet_count_total = true
    · rw [if_pos hl]
      exact overshoot_set_halted opts st (some LoopExit.ok) h
    · rw [if_neg hl]
      have h1 := overshoot_afterRolloverCheck opts st now h
      cases res with
      | packet ts data writeOk =>
          cases writeOk with
          | true => exact overshoot_check_then_write opts st now _ data.length rfl
          | false => exact overshoot_set_halted opts _ _ h1
      | disconnected => exact overshoot_set_halted opts _ _ h1

/-- The initial loop state satisfies the overshoot bounds. -/
theorem overshoot_init (opts : PcapCaptureOptions) (startTime : Nat) :
    engineOvershootInv opts (initEngineState startTime) := by
  constructor
  · intro mp _
    simp [initEngineState]
  · intro ms _
    simp [initEngineState, lastWriteLen]

/-- C2: in both continuous loops the rollover policy runs before the
next packet is consumed (structurally, each devStep and userStep
iteration applies afterRolloverCheck before dispatching on the source
outcome), so after any sequence of iteration events the open file
holds at most one packet beyond a configured packet threshold and its
byte total exceeds a configured size threshold by less than the last
written payload. Quantifying over every event list covers every
intermediate moment, each prefix being itself an event list. -/
theorem rollover_overshoot_bound (opts : PcapCaptureOptions) (startTime : Nat)
    (devEvents : List (Nat × DeviceResult)) (userEvents : List (Nat × UserResult)) :
    (∀ mp, opts.rollover_packet_count = some mp →
      (continuous_capture_with_rollover opts startTime devEvents).current_file_packet_count
          ≤ mp + 1 ∧
      (continuous_user_packet_capture_with_rollover opts startTime
          userEvents).current_file_packet_count ≤ mp + 1) ∧
    (∀ ms, opts.rollover_file_size_mb = some ms →
      (continuous_capture_with_rollover opts startTime devEvents).current_file_size_bytes
          ≤ ms * 1048576 + lastWriteLen
            (continuous_capture_with_rollover opts startTime devEvents).current_file_writes ∧
      (continuous_user_packet_capture_with_rollover opts startTime
          userEvents).current_file_size_bytes
          ≤ ms * 1048576 + lastWriteLen
            (continuous_user_packet_capture_with_rollover opts startTime
              userEvents).current_file_writes) := by
  have hdev : engineOvershootInv opts
      (continuous_capture_with_rollover opts startTime devEvents) :=
    foldl_invariant (devStep opts) (engineOvershootInv opts)
      (fun st e hst => devStep_overshoot opts st e hst) devEvents
      (initEngineState startTime) (overshoot_init opts startTime)
  have huser : engineOvershootInv opts
      (continuous_user_packet_capture_with_rollover opts startTime userEvents) :=
    foldl_invariant (userStep opts) (engineOvershootInv opts)
      (fun st e hst => userStep_overshoot opts st e hst) userEvents
      (initEngineState startTime) (overshoot_init opts startTime)
  exact ⟨fun mp hmp => ⟨hdev.1 mp hmp, huser.1 mp hmp⟩,
         fun ms hms => ⟨hdev.2 ms hms, huser.2 ms hms⟩⟩

/-- Witness for C2: a concrete device run against the packet threshold
2 and size threshold 1 MB, with the bounds instantiated there. -/
theorem rollover_overshoot_bound_witness :
    (continuous_capture_with_rollover sampleRolloverOpts 0
        sampleDevEvents).current_file_packet_count ≤ 2 + 1 ∧
    (continuous_capture_with_rollover sampleRolloverOpts 0
        sampleDevEvents).current_file_size_bytes
      ≤ 1 * 1048576 + lastWriteLen
        (continuous_capture_with_rollover sampleRolloverOpts 0
          sampleDevEvents).current_file_writes :=
  ⟨((rollover_overshoot_bound sampleRolloverOpts 0 sampleDevEvents []).1 2 rfl).1,
   ((rollover_overshoot_bound sampleRolloverOpts 0 sampleDevEvents []).2 1 rfl).1⟩

/-- Rolling over moves the open file into the closed list, leaving the
full write sequence unchanged. -/
theorem allEngineWrites_rolloverReset (st : EngineState) (now : Nat) :
    allEngineWrites (rolloverReset st now) = allEngineWrites st := by
  simp [allEngineWrites, rolloverReset]

/-- A successful write appends exactly one record. -/
theorem allEngineWrites_write (st : EngineState) (p : PcapPacket) (len : Nat) :
    allEngineWrites (writeEnginePacket st p len) = allEngineWrites st ++ [p] := by
  simp [allEngineWrites, writeEnginePacket]

/-- The rollover evaluation leaves the session counter, the halted
flag and the full write sequence unchanged. -/
theorem afterRolloverCheck_fields (opts : PcapCaptureOptions) (st : EngineState)
    (now : Nat) :
    (afterRolloverCheck opts st now).packet_count_total = st.packet_count_total ∧
    (afterRolloverCheck opts st now).halted = st.halted ∧
    allEngineWrites (afterRolloverCheck opts st now) = allEngineWrites st := by
  unfold afterRolloverCheck
  split
  · exact ⟨rfl, rfl, allEngineWrites_rolloverReset st now⟩
  · exact ⟨rfl, rfl, rfl⟩

/-- A false limitReached answer bounds the counter strictly below any
configured limit. -/
theorem limitReached_false_lt (opts : PcapCaptureOptions) (n l : Nat)
    (h : ¬limitReached opts n = true) (hl : opts.packet_limit = some l) : n < l := by
  unfold limitReached at h
  rw [hl] at h
  simp at h
  omega

/-- Setting the halted flag leaves the write sequence unchanged. -/
theorem allEngineWrites_set_halted (st : EngineState) (x : Option LoopExit) :
    allEngineWrites { st with halted := x } = allEngineWrites st := rfl

/-- One device-loop iteration preserves the session accounting. -/
theorem devStep_total (opts : PcapCaptureOptions) (st : EngineState)
    (ev : Nat × DeviceResult) (h : engineTotalInv opts st) :
    engineTotalInv opts (devStep opts st ev) := by
  rcases ev with ⟨now, res⟩
  simp only [devStep]
  by_cases hh : st.halted.isSome = true
  · rw [if_pos hh]
    exact h
  · rw [if_neg hh]
    have hnone : st.halted = none := Option.not_isSome_iff_eq_none.mp (by simpa using hh)
    obtain ⟨hra, hrb, hrc⟩ := afterRolloverCheck_fields opts st now
    by_cases hl : limitReached opts st.packet_count_total = true
    · rw [if_pos hl]
      refine ⟨?_, ?_⟩
      · rw [allEngineWrites_set_halted]
        exact h.1
      · intro l hl2
        exact ⟨(h.2 l hl2).1, by intro hc; simp at hc⟩
    · rw [if_neg hl]
      have hlt := fun l hl2 => limitReached_false_lt opts st.packet_count_total l hl hl2
      cases res with
      | packet tv_sec tv_usec data writeOk =>
          cases writeOk with
          | true =>
              show engineTotalInv opts (writeEnginePacket (afterRolloverCheck opts st now)
                (mkDevicePcapPacket tv_sec tv_usec data) data.length)
              refine ⟨?_, ?_⟩
              · rw [allEngineWrites_write, List.length_append, hrc]
                simp [writeEnginePacket, hra, h.1]
              · intro l hl2
                have hlt2 := hlt l hl2
                refine ⟨?_, ?_⟩
                · simp only [writeEnginePacket, hra]
                  omega
                · intro hc
                  simp only [writeEnginePacket] at hc
                  rw [hrb, hnone] at hc
                  simp at hc
          | false =>
              show engineTotalInv opts
                { afterRolloverCheck opts st now with halted := some LoopExit.pcapFileError }
              refine ⟨?_, ?_⟩
              · rw [allEngineWrites_set_halted, hrc]
                simp only [hra]
                exact h.1
              · intro l hl2
                have hlt2 := hlt l hl2
                refine ⟨?_, fun _ => ?_⟩ <;> simp only [hra] <;> omega
      | timeout =>
          exact ⟨by rw [hra, hrc]; exact h.1,
                 fun l hl2 => ⟨by rw [hra]; exact (h.2 l hl2).1,
                   fun hc => by rw [hrb, hnone] at hc; simp at hc⟩⟩
      | hardError =>
          refine ⟨?_, ?_⟩
          · rw [allEngineWrites_set_halted, hrc]
            simp only [hra]
            exact h.1
          · intro l hl2
            exact ⟨by simp only [hra]; exact (h.2 l hl2).1, by intro hc; simp at hc⟩

/-- One user-loop iteration preserves the session accounting. -/
theorem userStep_total (opts : PcapCaptureOptions) (st : EngineState)
    (ev : Nat × UserResult) (h : engineTotalInv opts st) :
    engineTotalInv opts (userStep opts st ev) := by
  rcases ev with ⟨now, res⟩
  simp only [userStep]
  by_cases hh : st.halted.isSome = true
  · rw [if_pos hh]
    exact h
  · rw [if_neg hh]
    have hnone : st.halted = none := Option.not_isSome_iff_eq_none.mp (by simpa using hh)
    obtain ⟨hra, hrb, hrc⟩ := afterRolloverCheck_fields opts st now
    by_cases hl : limitReached opts st.packet_count_total = true
    · rw [if_pos hl]
      refine ⟨?_, ?_⟩
      · rw [allEngineWrites_set_halted]
        exact h.1
      · intro l hl2
        exact ⟨(h.2 l hl2).1, by intro hc; simp at hc⟩
    · rw [if_neg hl]
      have hlt := fun l hl2 => limitReached_false_lt opts st.packet_count_total l hl hl2
      cases res with
      | packet ts data writeOk =>
          cases writeOk with
          | true =>
              show engineTotalInv opts (writeEnginePacket (afterRolloverCheck opts st now)
                (mkUserPcapPacket now ts data) data.length)
              refine ⟨?_, ?_⟩
              · rw [allEngineWrites_write, List.length_append, hrc]
                simp [writeEnginePacket, hra, h.1]
              · intro l hl2
                have hlt2 := hlt l hl2
                refine ⟨?_, ?_⟩
                · simp only [writeEnginePacket, hra]
                  omega
                · intro hc
                  simp only [writeEnginePacket] at hc
                  rw [hrb, hnone] at hc
                  simp at hc
          | false =>
              show engineTotalInv opts
                { afterRolloverCheck opts st now with halted := some LoopExit.pcapFileError }
              refine ⟨?_, ?_⟩
              · rw [allEngineWrites_set_halted, hrc]
                simp only [hra]
                exact h.1
              · intro l hl2
                have hlt2 := hlt l hl2
                refine ⟨?_, fun _ => ?_⟩ <;> simp only [hra] <;> omega
      | disconnected =>
          refine ⟨?_, ?_⟩
          · rw [allEngineWrites_set_halted, hrc]
            simp only [hra]
            exact h.1
          · intro l hl2
            exact ⟨by simp only [hra]; exact (h.2 l hl2).1, by intro hc; simp at hc⟩

/-- One capture_to_pcap iteration preserves the session accounting. -/
theorem capture_to_pcap_step_total (opts : PcapCaptureOptions) (st : ShotState)
    (res : DeviceResult) (h : shotTotalInv opts st) :
    shotTotalInv opts (capture_to_pcap_step opts st res) := by
  unfold capture_to_pcap_step
  by_cases hh : st.halted.isSome = true
  · rw [if_pos hh]
    exact h
  · rw [if_neg hh]
    have hnone : st.halted = none := Option.not_isSome_iff_eq_none.mp (by simpa using hh)
    by_cases hl : limitReached opts st.packet_count = true
    · rw [if_pos hl]
      exact ⟨h.1, fun l hl2 => ⟨(h.2 l hl2).1, by intro hc; simp at hc⟩⟩
    · rw [if_neg hl]
      have hlt := fun l hl2 => limitReached_false_lt opts st.packet_count l hl hl2
      cases res with
      | packet tv_sec tv_usec data writeOk =>
          cases writeOk with
          | true =>
              show shotTotalInv opts
                { st with packet_count := st.packet_count + 1,
                          writes := st.writes ++ [mkDevicePcapPacket tv_sec tv_usec data] }
              refine ⟨by simp [h.1], ?_⟩
              intro l hl2
              have hlt2 := hlt l hl2
              refine ⟨by simp only []; omega, ?_⟩
              intro hc
              simp only [] at hc
              rw [hnone] at hc
              simp at hc
          | false =>
              show shotTotalInv opts { st with halted := some LoopExit.pcapFileError }
              refine ⟨by simpa using h.1, ?_⟩
              intro l hl2
              have hlt2 := hlt l hl2
              exact ⟨by simpa using Nat.le_of_lt hlt2, fun _ => by simpa using hlt2⟩
      | timeout => exact h
      | hardError =>
          exact ⟨by simpa using h.1,
                 fun l hl2 => ⟨by simpa using (h.2 l hl2).1, by intro hc; simp at hc⟩⟩

/-- One user_packets_to_pcap iteration preserves the session
accounting. -/
theorem user_packets_to_pcap_step_total (opts : PcapCaptureOptions) (st : ShotState)
    (ev : Nat × UserResult) (h : shotTotalInv opts st) :
    shotTotalInv opts (user_packets_to_pcap_step opts st ev) := by
  rcases ev with ⟨now, res⟩
  simp only [user_packets_to_pcap_step]
  by_cases hh : st.halted.isSome = true
  · rw [if_pos hh]
    exact h
  · rw [if_neg hh]
    have hnone : st.halted = none := Option.not_isSome_iff_eq_none.mp (by simpa using hh)
    by_cases hl : limitReached opts st.packet_count = true
    · rw [if_pos hl]
      exact ⟨h.1, fun l hl2 => ⟨(h.2 l hl2).1, by intro hc; simp at hc⟩⟩
    · rw [if_neg hl]
      have hlt := fun l hl2 => limitReached_false_lt opts st.packet_count l hl hl2
      cases res with
      | packet ts data writeOk =>
          cases writeOk with
          | true =>
              show shotTotalInv opts
                { st with packet_count := st.packet_count + 1,
                          writes := st.writes ++ [mkUserPcapPacket now ts data] }
              refine ⟨by simp [h.1], ?_⟩
              intro l hl2
              have hlt2 := hlt l hl2
              refine ⟨by simp only []; omega, ?_⟩
              intro hc
              simp only [] at hc
              rw [hnone] at hc
              simp at hc
          | false =>
              show shotTotalInv opts { st with halted := some LoopExit.pcapFileError }
              refine ⟨by simpa using h.1, ?_⟩
              intro l hl2
              have hlt2 := hlt l hl2
              exact ⟨by simpa using Nat.le_of_lt hlt2, fun _ => by simpa using hlt2⟩
      | disconnected =>
          exact ⟨by simpa using h.1,
                 fun l hl2 => ⟨by simpa using (h.2 l hl2).1, by intro hc; simp at hc⟩⟩

/-- The initial continuous-loop state satisfies the session
accounting. -/
theorem total_init (opts : PcapCaptureOptions) (startTime : Nat) :
    engineTotalInv opts (initEngineState startTime) := by
  refine ⟨by simp [initEngineState, allEngineWrites], ?_⟩
  intro l _
  exact ⟨by simp [initEngineState], by intro hc; simp [initEngineState] at hc⟩

/-- The initial single-shot state satisfies the session accounting. -/
theorem shot_total_init (opts : PcapCaptureOptions) :
    shotTotalInv opts initShotState := by
  refine ⟨by simp [initShotState], ?_⟩
  intro l _
  exact ⟨by simp [initShotState], by intro hc; simp [initShotState] at hc⟩

/-- Once the session total has reached a configured limit, the next
device-loop iteration breaks with the success exit. -/
theorem devStep_halts_at_limit (opts : PcapCaptureOptions) (st : EngineState)
    (ev : Nat × DeviceResult) (l : Nat) (hl : opts.packet_limit = some l)
    (hinv : engineTotalInv opts st) (hge : l ≤ st.packet_count_total) :
    (devStep opts st ev).halted = some LoopExit.ok := by
  rcases ev with ⟨now, res⟩
  simp only [devStep]
  cases hst : st.halted with
  | none =>
      rw [if_neg (by simp [hst])]
      rw [if_pos (by unfold limitReached; rw [hl]; simpa using hge)]
  | some e =>
      cases e with
      | ok => rw [if_pos (by simp [hst])]; exact hst
      | pcapFileError =>
          have := (hinv.2 l hl).2 hst
          omega

/-- Once the session total has reached a configured limit, the next
user-loop iteration breaks with the success exit. -/
theorem userStep_halts_at_limit (opts : PcapCaptureOptions) (st : EngineState)
    (ev : Nat × UserResult) (l : Nat) (hl : opts.packet_limit = some l)
    (hinv : engineTotalInv opts st) (hge : l ≤ st.packet_count_total) :
    (userStep opts st ev).halted = some LoopExit.ok := by
  rcases ev with ⟨now, res⟩
  simp only [userStep]
  cases hst : st.halted with
  | none =>
      rw [if_neg (by simp [hst])]
      rw [if_pos (by unfold limitReached; rw [hl]; simpa using hge)]
  | some e =>
      cases e with
      | ok => rw [if_pos (by simp [hst])]; exact hst
      | pcapFileError =>
          have := (hinv.2 l hl).2 hst
          omega

/-- Once the counter has reached a configured limit, the next
capture_to_pcap iteration breaks with the success exit. -/
theorem capture_to_pcap_step_halts_at_limit (opts : PcapCaptureOptions) (st : ShotState)
    (res : DeviceResult) (l : Nat) (hl : opts.packet_limit = some l)
    (hinv : shotTotalInv opts st) (hge : l ≤ st.packet_count) :
    (capture_to_pcap_step opts st res).halted = some LoopExit.ok := by
  unfold capture_to_pcap_step
  cases hst : st.halted with
  | none =>
      rw [if_neg (by simp [hst])]
      rw [if_pos (by unfold limitReached; rw [hl]; simpa using hge)]
  | some e =>
      cases e with
      | ok => rw [if_pos (by simp [hst])]; exact hst
      | pcapFileError =>
          have := (hinv.2 l hl).2 hst
          omega

/-- Once the counter has reached a configured limit, the next
user_packets_to_pcap iteration breaks with the success exit. -/
theorem user_packets_to_pcap_step_halts_at_limit (opts : PcapCaptureOptions)
    (st : ShotState) (ev : Nat × UserResult) (l : Nat) (hl : opts.packet_limit = some l)
    (hinv : shotTotalInv opts st) (hge : l ≤ st.packet_count) :
    (user_packets_to_pcap_step opts st ev).halted = some LoopExit.ok := by
  rcases ev with ⟨now, res⟩
  simp only [user_packets_to_pcap_step]
  cases hst : st.halted with
  | none =>
      rw [if_neg (by simp [hst])]
      rw [if_pos (by unfold limitReached; rw [hl]; simpa using hge)]
  | some e =>
      cases e with
      | ok => rw [if_pos (by simp [hst])]; exact hst
      | pcapFileError =>
          have := (hinv.2 l hl).2 hst
          omega

/-- C3: in every capture loop (continuous and single-shot, device and
user-supplied) the session total equals the number of records written
so far; when a global limit is configured the total never exceeds it,
and once the total has reached the limit the next iteration breaks
with the success exit. Quantifying over every event list covers every
moment of the session. -/
theorem session_total_invariant (opts : PcapCaptureOptions) (startTime : Nat)
    (devEvents : List (Nat × DeviceResult)) (userEvents : List (Nat × UserResult))
    (shotDevEvents : List DeviceResult) (shotUserEvents : List (Nat × UserResult)) :
    ((continuous_capture_with_rollover opts startTime devEvents).packet_count_total
        = (allEngineWrites (continuous_capture_with_rollover opts startTime
            devEvents)).length ∧
      (∀ l, opts.packet_limit = some l →
        (continuous_capture_with_rollover opts startTime devEvents).packet_count_total ≤ l ∧
        (∀ ev, l ≤ (continuous_capture_with_rollover opts startTime
            devEvents).packet_count_total →
          (devStep opts (continuous_capture_with_rollover opts startTime devEvents)
            ev).halted = some LoopExit.ok))) ∧
    ((continuous_user_packet_capture_with_rollover opts startTime
          userEvents).packet_count_total
        = (allEngineWrites (continuous_user_packet_capture_with_rollover opts startTime
            userEvents)).length ∧
      (∀ l, opts.packet_limit = some l →
        (continuous_user_packet_capture_with_rollover opts startTime
            userEvents).packet_count_total ≤ l ∧
        (∀ ev, l ≤ (continuous_user_packet_capture_with_rollover opts startTime
            userEvents).packet_count_total →
          (userStep opts (continuous_user_packet_capture_with_rollover opts startTime
            userEvents) ev).halted = some LoopExit.ok))) ∧
    ((capture_to_pcap opts shotDevEvents).packet_count
        = (capture_to_pcap opts shotDevEvents).writes.length ∧
      (∀ l, opts.packet_limit = some l →
        (capture_to_pcap opts shotDevEvents).packet_count ≤ l ∧
        (∀ res, l ≤ (capture_to_pcap opts shotDevEvents).packet_count →
          (capture_to_pcap_step opts (capture_to_pcap opts shotDevEvents) res).halted
            = some LoopExit.ok))) ∧
    ((user_packets_to_pcap opts shotUserEvents).packet_count
        = (user_packets_to_pcap opts shotUserEvents).writes.length ∧
      (∀ l, opts.packet_limit = some l →
        (user_packets_to_pcap opts shotUserEvents).packet_count ≤ l ∧
        (∀ ev, l ≤ (user_packets_to_pcap opts shotUserEvents).packet_count →
          (user_packets_to_pcap_step opts (user_packets_to_pcap opts shotUserEvents)
            ev).halted = some LoopExit.ok))) := by
  have hdev : engineTotalInv opts
      (continuous_capture_with_rollover opts startTime devEvents) :=
    foldl_invariant (devStep opts) (engineTotalInv opts)
      (fun st e hst => devStep_total opts st e hst) devEvents
      (initEngineState startTime) (total_init opts startTime)
  have huser : engineTotalInv opts
      (continuous_user_packet_capture_with_rollover opts startTime userEvents) :=
    foldl_invariant (userStep opts) (engineTotalInv opts)
      (fun st e hst => userStep_total opts st e hst) userEvents
      (initEngineState startTime) (total_init opts startTime)
  have hshot : shotTotalInv opts (capture_to_pcap opts shotDevEvents) :=
    foldl_invariant (capture_to_pcap_step opts) (shotTotalInv opts)
      (fun st e hst => capture_to_pcap_step_total opts st e hst) shotDevEvents
      initShotState (shot_total_init opts)
  have hushot : shotTotalInv opts (user_packets_to_pcap opts shotUserEvents) :=
    foldl_invariant (user_packets_to_pcap_step opts) (shotTotalInv opts)
      (fun st e hst => user_packets_to_pcap_step_total opts st e hst) shotUserEvents
      initShotState (shot_total_init opts)
  refine ⟨⟨hdev.1, ?_⟩, ⟨huser.1, ?_⟩, ⟨hshot.1, ?_⟩, ⟨hushot.1, ?_⟩⟩
  · intro l hl
    exact ⟨(hdev.2 l hl).1,
           fun ev hge => devStep_halts_at_limit opts _ ev l hl hdev hge⟩
  · intro l hl
    exact ⟨(huser.2 l hl).1,
           fun ev hge => userStep_halts_at_limit opts _ ev l hl huser hge⟩
  · intro l hl
    exact ⟨(hshot.2 l hl).1,
           fun res hge => capture_to_pcap_step_halts_at_limit opts _ res l hl hshot hge⟩
  · intro l hl
    exact ⟨(hushot.2 l hl).1,
           fun ev hge => user_packets_to_pcap_step_halts_at_limit opts _ ev l hl
             hushot hge⟩

/-- Witness for C3: with a limit of 2 and three offered packets, the
total matches the writes, stops at 2, and the following iteration
breaks with the success exit. -/
theorem session_total_invariant_witness :
    (continuous_capture_with_rollover sampleLimitOpts 0
        sampleDevEvents).packet_count_total
      = (allEngineWrites (continuous_capture_with_rollover sampleLimitOpts 0
          sampleDevEvents)).length ∧
    (continuous_capture_with_rollover sampleLimitOpts 0
        sampleDevEvents).packet_count_total ≤ 2 ∧
    (devStep sampleLimitOpts
      (continuous_capture_with_rollover sampleLimitOpts 0 sampleDevEvents)
      (3, DeviceResult.timeout)).halted = some LoopExit.ok :=
  ⟨(session_total_invariant sampleLimitOpts 0 sampleDevEvents [] [] []).1.1,
   ((session_total_invariant sampleLimitOpts 0 sampleDevEvents [] [] []).1.2 2 rfl).1,
   ((session_total_invariant sampleLimitOpts 0 sampleDevEvents [] [] []).1.2 2 rfl).2
     (3, DeviceResult.timeout) (by decide)⟩

/-- Counterexample to C4 as stated: in a concrete continuous device
run a hard capture error terminates the session (the loop breaks with
the success exit, fn capture returns Ok), and a packet the source
would deliver on the following iteration is never written; the engine
does not sleep and retry. -/
theorem device_hard_error_cex :
    (continuous_capture_with_rollover sampleContinuousOpts 0
      [(0, DeviceResult.hardError),
       (1, DeviceResult.packet 5 0 [1] true)]).halted = some LoopExit.ok ∧
    (continuous_capture_with_rollover sampleContinuousOpts 0
      [(0, DeviceResult.hardError),
       (1, DeviceResult.packet 5 0 [1] true)]).packet_count_total = 0 ∧
    allEngineWrites (continuous_capture_with_rollover sampleContinuousOpts 0
      [(0, DeviceResult.hardError),
       (1, DeviceResult.packet 5 0 [1] true)]) = [] := by
  refine ⟨?_, ?_, ?_⟩ <;> rfl

/-- C4 amended: in the continuous device loop every hard (non-timeout)
capture error is logged and then breaks the loop, writing nothing
further; the session ends there and the function returns Ok rather
than sleeping and retrying. -/
theorem device_hard_error_breaks (opts : PcapCaptureOptions) (st : EngineState)
    (now : Nat) (h : st.halted = none) :
    (devStep opts st (now, DeviceResult.hardError)).halted = some LoopExit.ok ∧
    allEngineWrites (devStep opts st (now, DeviceResult.hardError))
      = allEngineWrites st ∧
    (devStep opts st (now, DeviceResult.hardError)).packet_count_total
      = st.packet_count_total := by
  simp only [devStep]
  rw [if_neg (by simp [h])]
  by_cases hl : limitReached opts st.packet_count_total = true
  · rw [if_pos hl]
    exact ⟨rfl, rfl, rfl⟩
  · rw [if_neg hl]
    obtain ⟨hra, hrb, hrc⟩ := afterRolloverCheck_fields opts st now
    refine ⟨rfl, ?_, ?_⟩
    · rw [allEngineWrites_set_halted]
      exact hrc
    · show (afterRolloverCheck opts st now).packet_count_total = st.packet_count_total
      exact hra

/-- Witness for the amended C4 at the initial loop state. -/
theorem device_hard_error_breaks_witness :
    (devStep sampleContinuousOpts (initEngineState 0)
      (0, DeviceResult.hardError)).halted = some LoopExit.ok ∧
    allEngineWrites (devStep sampleContinuousOpts (initEngineState 0)
      (0, DeviceResult.hardError)) = allEngineWrites (initEngineState 0) ∧
    (devStep sampleContinuousOpts (initEngineState 0)
      (0, DeviceResult.hardError)).packet_count_total
      = (initEngineState 0).packet_count_total :=
  device_hard_error_breaks sampleContinuousOpts (initEngineState 0) 0 rfl

/-- Counterexample to C5 as stated: for the PcapNg container format
fn create_new_file uses the extension pcapng, not pcap, so the
generated filename differs from the {prefix}_{timestamp}.pcap form
the claim asserts for both formats. -/
theorem pcapng_extension_cex :
    (create_new_file { defaultOptions with file_format := FileFormat.PcapNg }
      "20240101_120000").1 = "capture_20240101_120000.pcapng" ∧
    "capture_20240101_120000.pcapng" ≠ "capture_20240101_120000.pcap" :=
  ⟨rfl, by decide⟩

/-- C5 amended: for every configuration and timestamp the allocator
produces {prefix}_{timestamp}.{ext} joined to the configured output
directory, where ext is pcap for the Pcap format and pcapng for the
PcapNg format, matching the naming convention stated in section 6 of
the spec. -/
theorem create_new_file_matches_naming (opts : PcapCaptureOptions) (ts : String) :
    (create_new_file opts ts).1
      = specFileName ( PcapCaptureOptions.file_prefix opts) ts opts.file_format ∧
    (create_new_file opts ts).2
      = pathJoin opts.file_path (create_new_file opts ts).1 := by
  cases hf : opts.file_format <;>
    simp [create_new_file, specFileName, fileExtension, hf]

/-- Helper: construction keeps the supplied options unchanged. -/
theorem PcapCapturer_new_options (opts : PcapCaptureOptions) :
    (PcapCapturer.new opts).options = opts := by
  cases h : opts.packet_source <;> simp [PcapCapturer.new, h]

/-- Counterexample to C6 as stated: with an absent device name and a
missing output directory, fn capture creates the directory first and
only then enumerates devices; the InvalidDevice failure is returned
after the directory has been ensured, so the device check does not
happen before the directory step. -/
theorem invalid_device_after_dir_cex :
    ((PcapCapturer.new sampleDeviceOpts).capture sampleMissingDeviceEnv 0 [] []).result
      = Except.error (SavePcapError.invalidDevice "eth0") ∧
    ((PcapCapturer.new sampleDeviceOpts).capture sampleMissingDeviceEnv 0 [] []).dir_created
      = true ∧
    ((PcapCapturer.new sampleDeviceOpts).capture sampleMissingDeviceEnv 0 [] []).effects
      = [StartupEffect.createDirAll, StartupEffect.listDevices] := by
  refine ⟨?_, ?_, ?_⟩ <;> rfl

/-- C6 amended: startup ensures the output directory first (creating
it recursively when missing) and then enumerates devices; when the
configured interface name is absent, capture fails with InvalidDevice
and no output file is created, although the output directory may
already have been created by then. -/
theorem invalid_device_no_file (opts : PcapCaptureOptions) (env : CaptureEnv)
    (startTime : Nat) (devEvents : List (Nat × DeviceResult))
    (userEvents : List (Nat × UserResult)) (name : String)
    (hsrc : opts.packet_source = PacketSource.NetworkDevice name)
    (habs : env.devices.contains name = false)
    (hdir : env.dirExists = true ∨ env.dirCreateOk = true) :
    ((PcapCapturer.new opts).capture env startTime devEvents userEvents).result
        = Except.error (SavePcapError.invalidDevice name) ∧
    ((PcapCapturer.new opts).capture env startTime devEvents
        userEvents).files_created = 0 ∧
    ((PcapCapturer.new opts).capture env startTime devEvents userEvents).effects
        = (if env.dirExists then [] else [StartupEffect.createDirAll])
          ++ [StartupEffect.listDevices] := by
  have hdirb : (!env.dirExists && !env.dirCreateOk) = false := by
    rcases hdir with h1 | h1 <;> simp [h1]
  have hnot : name ∉ env.devices := by simpa using habs
  simp [PcapCapturer.capture, PcapCapturer_new_options, hsrc, hnot, hdirb]

/-- Witness for the amended C6: the concrete missing-device run. -/
theorem invalid_device_no_file_witness :
    ((PcapCapturer.new sampleDeviceOpts).capture sampleMissingDeviceEnv 0 [] []).result
        = Except.error (SavePcapError.invalidDevice "eth0") ∧
    ((PcapCapturer.new sampleDeviceOpts).capture sampleMissingDeviceEnv 0 [] []).files_created
        = 0 ∧
    ((PcapCapturer.new sampleDeviceOpts).capture sampleMissingDeviceEnv 0 [] []).effects
        = (if sampleMissingDeviceEnv.dirExists then []
            else [StartupEffect.createDirAll]) ++ [StartupEffect.listDevices] :=
  invalid_device_no_file sampleDeviceOpts sampleMissingDeviceEnv 0 [] [] "eth0"
    rfl rfl (Or.inr rfl)

/-- C7: with continuous mode disabled and a successful startup, fn
capture allocates exactly one output file and performs no rollover,
whatever rollover thresholds are configured and whatever the source
delivers. -/
theorem single_shot_one_file (opts : PcapCaptureOptions) (env : CaptureEnv)
    (startTime : Nat) (devEvents : List (Nat × DeviceResult))
    (userEvents : List (Nat × UserResult))
    (hc : opts.continuous_capture = false) (hok : startupOk opts env) :
    ((PcapCapturer.new opts).capture env startTime devEvents
        userEvents).files_created = 1 ∧
    ((PcapCapturer.new opts).capture env startTime devEvents
        userEvents).rollovers = 0 := by
  have hdirb : (!env.dirExists && !env.dirCreateOk) = false := by
    rcases hok.1 with h1 | h1 <;> simp [h1]
  cases hsrc : opts.packet_source with
  | NetworkDevice name =>
      obtain ⟨hmem, hopen⟩ := hok.2 name hsrc
      have hmem2 : name ∈ env.devices := by simpa using hmem
      cases hf : opts.file_format <;>
        simp [PcapCapturer.capture, PcapCapturer_new_options, hsrc, hdirb, hmem2,
          hopen, hc, hf]
  | UserProvided =>
      have hrecv : (PcapCapturer.new opts).packet_receiver = some () := by
        simp [PcapCapturer.new, hsrc]
      simp [PcapCapturer.capture, PcapCapturer_new_options, hsrc, hdirb, hrecv, hc]

/-- Witness for C7: the concrete single-shot device session. -/
theorem single_shot_one_file_witness :
    ((PcapCapturer.new sampleDeviceOpts).capture sampleDeviceEnv 0 [] []).files_created
        = 1 ∧
    ((PcapCapturer.new sampleDeviceOpts).capture sampleDeviceEnv 0 [] []).rollovers
        = 0 :=
  single_shot_one_file sampleDeviceOpts sampleDeviceEnv 0 [] [] rfl
    ⟨Or.inl rfl, by
      intro name h
      simp [sampleDeviceOpts, defaultOptions] at h
      subst h
      exact ⟨by decide, rfl⟩⟩

/-- With no configured limit, a live user-loop state consumes a
successfully-writable packet: still live, one more counted, one more
written. -/
theorem userStep_good (opts : PcapCaptureOptions) (st : EngineState)
    (ev : Nat × UserResult) (hlim : opts.packet_limit = none)
    (hh : st.halted = none) (hgood : isOkWritePacket ev.2 = true) :
    (userStep opts st ev).halted = none ∧
    (userStep opts st ev).packet_count_total = st.packet_count_total + 1 ∧
    (allEngineWrites (userStep opts st ev)).length = (allEngineWrites st).length + 1 := by
  rcases ev with ⟨now, res⟩
  cases res with
  | disconnected => simp [isOkWritePacket] at hgood
  | packet ts data writeOk =>
      cases writeOk with
      | false => simp [isOkWritePacket] at hgood
      | true =>
          obtain ⟨hra, hrb, hrc⟩ := afterRolloverCheck_fields opts st now
          have heq : userStep opts st (now, UserResult.packet ts data true)
              = writeEnginePacket (afterRolloverCheck opts st now)
                  (mkUserPcapPacket now ts data) data.length := by
            simp only [userStep]
            rw [if_neg (by simp [hh]), if_neg (by simp [limitReached, hlim])]
            simp
          rw [heq]
          refine ⟨?_, ?_, ?_⟩
          · show (afterRolloverCheck opts st now).halted = none
            rw [hrb]
            exact hh
          · show (afterRolloverCheck opts st now).packet_count_total + 1
              = st.packet_count_total + 1
            rw [hra]
          · rw [allEngineWrites_write, List.length_append, hrc]
            simp

/-- With no configured limit, a live user-loop state that sees the
disconnect signal breaks with the success exit, changing no counter. -/
theorem userStep_disconnect (opts : PcapCaptureOptions) (st : EngineState)
    (now : Nat) (hlim : opts.packet_limit = none) (hh : st.halted = none) :
    (userStep opts st (now, UserResult.disconnected)).halted = some LoopExit.ok ∧
    (userStep opts st (now, UserResult.disconnected)).packet_count_total
      = st.packet_count_total ∧
    (allEngineWrites (userStep opts st
      (now, UserResult.disconnected))).length = (allEngineWrites st).length := by
  obtain ⟨hra, hrb, hrc⟩ := afterRolloverCheck_fields opts st now
  have heq : userStep opts st (now, UserResult.disconnected)
      = { afterRolloverCheck opts st now with halted := some LoopExit.ok } := by
    simp only [userStep]
    rw [if_neg (by simp [hh]), if_neg (by simp [limitReached, hlim])]
  rw [heq]
  refine ⟨rfl, ?_, ?_⟩
  · show (afterRolloverCheck opts st now).packet_count_total = st.packet_count_total
    exact hra
  · rw [allEngineWrites_set_halted, hrc]

/-- With no configured limit, the continuous user loop consumes every
successfully-writable packet it is offered, staying live. -/
theorem userLoop_consumes_all (opts : PcapCaptureOptions)
    (hlim : opts.packet_limit = none) :
    ∀ (events : List (Nat × UserResult)) (st : EngineState),
      st.halted = none →
      (∀ ev ∈ events, isOkWritePacket ev.2 = true) →
      (List.foldl (userStep opts) st events).halted = none ∧
      (List.foldl (userStep opts) st events).packet_count_total
        = st.packet_count_total + events.length ∧
      (allEngineWrites (List.foldl (userStep opts) st events)).length
        = (allEngineWrites st).length + events.length := by
  intro events
  induction events with
  | nil =>
      intro st hh _
      exact ⟨hh, rfl, rfl⟩
  | cons ev rest ih =>
      intro st hh hgood
      have hg1 := hgood ev (List.mem_cons_self ev rest)
      have hstep := userStep_good opts st ev hlim hh hg1
      have hrest := ih (userStep opts st ev) hstep.1
        (fun e he => hgood e (List.mem_cons_of_mem ev he))
      refine ⟨by simpa using hrest.1, ?_, ?_⟩
      · rw [List.foldl_cons, hrest.2.1, hstep.2.1]
        simp only [List.length_cons]
        omega
      · rw [List.foldl_cons, hrest.2.2, hstep.2.2]
        simp only [List.length_cons]
        omega

/-- With no configured limit, a live single-shot user state consumes a
successfully-writable packet. -/
theorem shotUserStep_good (opts : PcapCaptureOptions) (st : ShotState)
    (ev : Nat × UserResult) (hlim : opts.packet_limit = none)
    (hh : st.halted = none) (hgood : isOkWritePacket ev.2 = true) :
    (user_packets_to_pcap_step opts st ev).halted = none ∧
    (user_packets_to_pcap_step opts st ev).packet_count = st.packet_count + 1 ∧
    (user_packets_to_pcap_step opts st ev).writes.length = st.writes.length + 1 := by
  rcases ev with ⟨now, res⟩
  cases res with
  | disconnected => simp [isOkWritePacket] at hgood
  | packet ts data writeOk =>
      cases writeOk with
      | false => simp [isOkWritePacket] at hgood
      | true =>
          have heq : user_packets_to_pcap_step opts st (now, UserResult.packet ts data true)
              = { st with packet_count := st.packet_count + 1,
                          writes := st.writes ++ [mkUserPcapPacket now ts data] } := by
            simp only [user_packets_to_pcap_step]
            rw [if_neg (by simp [hh]), if_neg (by simp [limitReached, hlim])]
            simp
          rw [heq]
          exact ⟨hh, rfl, by simp⟩

/-- With no configured limit, a live single-shot user state that sees
the disconnect signal breaks with the success exit. -/
theorem shotUserStep_disconnect (opts : PcapCaptureOptions) (st : ShotState)
    (now : Nat) (hlim : opts.packet_limit = none) (hh : st.halted = none) :
    (user_packets_to_pcap_step opts st (now, UserResult.disconnected)).halted
      = some LoopExit.ok ∧
    (user_packets_to_pcap_step opts st (now, UserResult.disconnected)).packet_count
      = st.packet_count ∧
    (user_packets_to_pcap_step opts st (now, UserResult.disconnected)).writes.length
      = st.writes.length := by
  have heq : user_packets_to_pcap_step opts st (now, UserResult.disconnected)
      = { st with halted := some LoopExit.ok } := by
    simp only [user_packets_to_pcap_step]
    rw [if_neg (by simp [hh]), if_neg (by simp [limitReached, hlim])]
  rw [heq]
  exact ⟨rfl, rfl, rfl⟩

/-- With no configured limit, the single-shot user loop consumes every
successfully-writable packet it is offered, staying live. -/
theorem shotUserLoop_consumes_all (opts : PcapCaptureOptions)
    (hlim : opts.packet_limit = none) :
    ∀ (events : List (Nat × UserResult)) (st : ShotState),
      st.halted = none →
      (∀ ev ∈ events, isOkWritePacket ev.2 = true) →
      (List.foldl (user_packets_to_pcap_step opts) st events).halted = none ∧
      (List.foldl (user_packets_to_pcap_step opts) st events).packet_count
        = st.packet_count + events.length ∧
      (List.foldl (user_packets_to_pcap_step opts) st events).writes.length
        = st.writes.length + events.length := by
  intro events
  induction events with
  | nil =>
      intro st hh _
      exact ⟨hh, rfl, rfl⟩
  | cons ev rest ih =>
      intro st hh hgood
      have hg1 := hgood ev (List.mem_cons_self ev rest)
      have hstep := shotUserStep_good opts st ev hlim hh hg1
      have hrest := ih (user_packets_to_pcap_step opts st ev) hstep.1
        (fun e he => hgood e (List.mem_cons_of_mem ev he))
      refine ⟨by simpa using hrest.1, ?_, ?_⟩
      · rw [List.foldl_cons, hrest.2.1, hstep.2.1]
        simp only [List.length_cons]
        omega
      · rw [List.foldl_cons, hrest.2.2, hstep.2.2]
        simp only [List.length_cons]
        omega

/-- C8: for the user-supplied source with no limit configured, once
every producer handle is dropped (the disconnect signal after the
submitted packets), both user loops break with the success exit, the
function result is Ok, and exactly the packets received before the
disconnect have been written. -/
theorem user_disconnect_ends_ok (opts : PcapCaptureOptions) (startTime now : Nat)
    (events : List (Nat × UserResult))
    (hlim : opts.packet_limit = none)
    (hgood : ∀ ev ∈ events, isOkWritePacket ev.2 = true) :
    (continuous_user_packet_capture_with_rollover opts startTime
        (events ++ [(now, UserResult.disconnected)])).halted = some LoopExit.ok ∧
    exitToResult (continuous_user_packet_capture_with_rollover opts startTime
        (events ++ [(now, UserResult.disconnected)])).halted = Except.ok () ∧
    (continuous_user_packet_capture_with_rollover opts startTime
        (events ++ [(now, UserResult.disconnected)])).packet_count_total
      = events.length ∧
    (allEngineWrites (continuous_user_packet_capture_with_rollover opts startTime
        (events ++ [(now, UserResult.disconnected)]))).length = events.length ∧
    (user_packets_to_pcap opts
        (events ++ [(now, UserResult.disconnected)])).halted = some LoopExit.ok ∧
    exitToResult (user_packets_to_pcap opts
        (events ++ [(now, UserResult.disconnected)])).halted = Except.ok () ∧
    (user_packets_to_pcap opts
        (events ++ [(now, UserResult.disconnected)])).packet_count = events.length ∧
    (user_packets_to_pcap opts
        (events ++ [(now, UserResult.disconnected)])).writes.length = events.length := by
  have hrun := userLoop_consumes_all opts hlim events (initEngineState startTime)
    rfl hgood
  have hshot := shotUserLoop_consumes_all opts hlim events initShotState rfl hgood
  have hd := userStep_disconnect opts
    (List.foldl (userStep opts) (initEngineState startTime) events) now hlim hrun.1
  have hds := shotUserStep_disconnect opts
    (List.foldl (user_packets_to_pcap_step opts) initShotState events) now hlim hshot.1
  have happ : continuous_user_packet_capture_with_rollover opts startTime
      (events ++ [(now, UserResult.disconnected)])
      = userStep opts (List.foldl (userStep opts) (initEngineState startTime) events)
          (now, UserResult.disconnected) := by
    unfold continuous_user_packet_capture_with_rollover
    rw [List.foldl_append]
    rfl
  have happs : user_packets_to_pcap opts (events ++ [(now, UserResult.disconnected)])
      = user_packets_to_pcap_step opts
          (List.foldl (user_packets_to_pcap_step opts) initShotState events)
          (now, UserResult.disconnected) := by
    unfold user_packets_to_pcap
    rw [List.foldl_append]
    rfl
  rw [happ, happs]
  have h3 : (userStep opts
      (List.foldl (userStep opts) (initEngineState startTime) events)
      (now, UserResult.disconnected)).packet_count_total = events.length := by
    rw [hd.2.1, hrun.2.1]
    simp [initEngineState]
  have h4 : (allEngineWrites (userStep opts
      (List.foldl (userStep opts) (initEngineState startTime) events)
      (now, UserResult.disconnected))).length = events.length := by
    rw [hd.2.2, hrun.2.2]
    simp [initEngineState, allEngineWrites]
  have h7 : (user_packets_to_pcap_step opts
      (List.foldl (user_packets_to_pcap_step opts) initShotState events)
      (now, UserResult.disconnected)).packet_count = events.length := by
    rw [hds.2.1, hshot.2.1]
    simp [initShotState]
  have h8 : (user_packets_to_pcap_step opts
      (List.foldl (user_packets_to_pcap_step opts) initShotState events)
      (now, UserResult.disconnected)).writes.length = events.length := by
    rw [hds.2.2, hshot.2.2]
    simp [initShotState]
  exact ⟨hd.1, by rw [hd.1]; rfl, h3, h4, hds.1, by rw [hds.1]; rfl, h7, h8⟩

/-- Witness for C8: two packets then disconnect, in both user loops. -/
theorem user_disconnect_ends_ok_witness :
    (continuous_user_packet_capture_with_rollover
      { defaultOptions with continuous_capture := true } 0
      [(0, UserResult.packet (some (1, 0)) [1] true),
       (1, UserResult.packet none [2, 3] true),
       (2, UserResult.disconnected)]).halted = some LoopExit.ok ∧
    (continuous_user_packet_capture_with_rollover
      { defaultOptions with continuous_capture := true } 0
      [(0, UserResult.packet (some (1, 0)) [1] true),
       (1, UserResult.packet none [2, 3] true),
       (2, UserResult.disconnected)]).packet_count_total = 2 := by
  have h := user_disconnect_ends_ok
    { defaultOptions with continuous_capture := true } 0 2
    [(0, UserResult.packet (some (1, 0)) [1] true),
     (1, UserResult.packet none [2, 3] true)] rfl (by decide)
  exact ⟨h.1, h.2.2.1⟩

/-- One device-loop iteration only ever appends records built by
mkDevicePcapPacket. -/
theorem devStep_writes_shape (opts : PcapCaptureOptions) (st : EngineState)
    (ev : Nat × DeviceResult) (h : engineWritesFromDevice st) :
    engineWritesFromDevice (devStep opts st ev) := by
  rcases ev with ⟨now, res⟩
  simp only [devStep]
  by_cases hh : st.halted.isSome = true
  · rw [if_pos hh]
    exact h
  · rw [if_neg hh]
    have hafter : engineWritesFromDevice (afterRolloverCheck opts st now) := by
      intro p hp
      rw [(afterRolloverCheck_fields opts st now).2.2] at hp
      exact h p hp
    by_cases hl : limitReached opts st.packet_count_total = true
    · rw [if_pos hl]
      intro p hp
      rw [allEngineWrites_set_halted] at hp
      exact h p hp
    · rw [if_neg hl]
      cases res with
      | packet tv_sec tv_usec data writeOk =>
          cases writeOk with
          | true =>
              show engineWritesFromDevice (writeEnginePacket (afterRolloverCheck opts st now)
                (mkDevicePcapPacket tv_sec tv_usec data) data.length)
              intro p hp
              rw [allEngineWrites_write] at hp
              rcases List.mem_append.mp hp with hp1 | hp1
              · exact hafter p hp1
              · exact ⟨tv_sec, tv_usec, data, by simpa using hp1⟩
          | false =>
              show engineWritesFromDevice
                { afterRolloverCheck opts st now with halted := some LoopExit.pcapFileError }
              intro p hp
              rw [allEngineWrites_set_halted] at hp
              exact hafter p hp
      | timeout => exact hafter
      | hardError =>
          intro p hp
          rw [allEngineWrites_set_halted] at hp
          exact hafter p hp

/-- One capture_to_pcap iteration only ever appends records built by
mkDevicePcapPacket. -/
theorem capture_to_pcap_step_writes_shape (opts : PcapCaptureOptions) (st : ShotState)
    (res : DeviceResult) (h : shotWritesFromDevice st) :
    shotWritesFromDevice (capture_to_pcap_step opts st res) := by
  unfold capture_to_pcap_step
  by_cases hh : st.halted.isSome = true
  · rw [if_pos hh]
    exact h
  · rw [if_neg hh]
    by_cases hl : limitReached opts st.packet_count = true
    · rw [if_pos hl]
      intro p hp
      exact h p hp
    · rw [if_neg hl]
      cases res with
      | packet tv_sec tv_usec data writeOk =>
          cases writeOk with
          | true =>
              show shotWritesFromDevice
                { st with packet_count := st.packet_count + 1,
                          writes := st.writes ++ [mkDevicePcapPacket tv_sec tv_usec data] }
              intro p hp
              rcases List.mem_append.mp hp with hp1 | hp1
              · exact h p hp1
              · exact ⟨tv_sec, tv_usec, data, by simpa using hp1⟩
          | false =>
              show shotWritesFromDevice { st with halted := some LoopExit.pcapFileError }
              intro p hp
              exact h p hp
      | timeout => exact h
      | hardError =>
          intro p hp
          exact h p hp

/-- C9: a device-sourced record carries the timestamp tv_sec seconds
plus tv_usec microseconds scaled by 1000 to nanoseconds (for in-range
header fields), its original length equals the payload length, and the
original length never exceeds the stored data length; and every record
the device loops (continuous and single-shot) write is built exactly
this way. -/
theorem device_packet_serialization :
    (∀ tv_sec tv_usec (data : List Nat), tv_usec < 1000000 → data.length < 2 ^ 32 →
      tsTotalNanos (mkDevicePcapPacket tv_sec tv_usec data)
          = tv_sec * 1000000000 + tv_usec * 1000 ∧
      (mkDevicePcapPacket tv_sec tv_usec data).orig_len = data.length ∧
      (mkDevicePcapPacket tv_sec tv_usec data).orig_len
          ≤ (mkDevicePcapPacket tv_sec tv_usec data).data.length) ∧
    (∀ opts startTime events, engineWritesFromDevice
      (continuous_capture_with_rollover opts startTime events)) ∧
    (∀ opts events, shotWritesFromDevice (capture_to_pcap opts events)) := by
  refine ⟨?_, ?_, ?_⟩
  · intro tv_sec tv_usec data hu hd
    have h1 : tv_usec * 1000 < 1000000000 := by omega
    have h2 : tv_usec * 1000 < 2 ^ 32 := lt_trans h1 (by norm_num)
    refine ⟨?_, ?_, ?_⟩
    · simp only [mkDevicePcapPacket, durationNew, tsTotalNanos]
      rw [Nat.mod_eq_of_lt h2, Nat.div_eq_of_lt h1, Nat.mod_eq_of_lt h1]
      ring
    · simp only [mkDevicePcapPacket]
      exact Nat.mod_eq_of_lt hd
    · simp only [mkDevicePcapPacket]
      exact Nat.mod_le data.length (2 ^ 32)
  · intro opts startTime events
    exact foldl_invariant (devStep opts) engineWritesFromDevice
      (fun st e hst => devStep_writes_shape opts st e hst) events
      (initEngineState startTime) (by intro p hp; simp [initEngineState, allEngineWrites] at hp)
  · intro opts events
    exact foldl_invariant (capture_to_pcap_step opts) shotWritesFromDevice
      (fun st e hst => capture_to_pcap_step_writes_shape opts st e hst) events
      initShotState (by intro p hp; simp [initShotState] at hp)

/-- Witness for C9 at concrete header fields. -/
theorem device_packet_serialization_witness :
    tsTotalNanos (mkDevicePcapPacket 7 5 [1, 2, 3]) = 7 * 1000000000 + 5 * 1000 ∧
    (mkDevicePcapPacket 7 5 [1, 2, 3]).orig_len = 3 := by
  have h := device_packet_serialization.1 7 5 [1, 2, 3] (by decide) (by decide)
  exact ⟨h.1, h.2.1⟩

/-- C10: after construction, get_packet_sender returns the sender
handle exactly when the capturer was built for the UserProvided
source, and always none for a NetworkDevice source. -/
theorem get_packet_sender_iff (opts : PcapCaptureOptions) :
    ((PcapCapturer.new opts).get_packet_sender = some ()
        ↔ opts.packet_source = PacketSource.UserProvided) ∧
    (∀ name, opts.packet_source = PacketSource.NetworkDevice name →
      (PcapCapturer.new opts).get_packet_sender = none) := by
  constructor
  · cases h : opts.packet_source <;>
      simp [PcapCapturer.new, PcapCapturer.get_packet_sender, h]
  · intro name hname
    simp [PcapCapturer.new, PcapCapturer.get_packet_sender, hname]

/-- Witness for C10: the eth0-sourced capturer exposes no sender. -/
theorem get_packet_sender_iff_witness :
    (PcapCapturer.new sampleDeviceOpts).get_packet_sender = none :=
  (get_packet_sender_iff sampleDeviceOpts).2 "eth0" rfl
